import Mathlib

/-!
Shallow embedding of `src/app/main.py` (class `AudiobookConverter`): the
path sanitizer, input-structure detection, metadata resolution, output-path
planning, and the per-book processing pipeline (`process_audiobook`) with
its tagging (`tag_with_beets`) and transcoding (`convert_to_m4b_ffmpeg712`)
steps.  Filesystem and external-tool effects are modelled as an explicit
trace of events; the outcomes of the external tools (mutagen tag reading,
beets, ffmpeg) and of the filesystem existence checks are inputs supplied
by an environment record.
-/

namespace M4bMaker

/-- ASCII whitespace recognised by Python's `str.strip` / regex `\s`
(space, tab, newline, carriage return, vertical tab, form feed). -/
def isSpace (c : Char) : Bool :=
  c = ' ' || c = '\t' || c = '\n' || c = '\x0d' || c = '\x0b' || c = '\x0c'

/-- Characters removed by `re.sub(r'[<>:"/\\|?*]', '', filename)`. -/
def reservedChars : List Char := ['<', '>', ':', '\"', '/', '\\', '|', '?', '*']

/-- Removal of the reserved characters. -/
def removeReserved (l : List Char) : List Char :=
  l.filter (fun c => !(reservedChars.contains c))

/-- Replacement of each maximal run of whitespace by a single space, as
`re.sub(r'\s+', ' ', filename)` does; the flag records whether the
previous character belonged to a whitespace run already replaced. -/
def collapseWsAux : Bool → List Char → List Char
  | _, [] => []
  | true, c :: rest =>
    if isSpace c then collapseWsAux true rest
    else c :: collapseWsAux false rest
  | false, c :: rest =>
    if isSpace c then ' ' :: collapseWsAux true rest
    else c :: collapseWsAux false rest

/-- Replacement of each maximal run of whitespace by a single space. -/
def collapseWs (l : List Char) : List Char := collapseWsAux false l

/-- Python `str.lstrip()` on a character list. -/
def stripLeft (l : List Char) : List Char := l.dropWhile isSpace

/-- Python `str.rstrip()` on a character list. -/
def stripRight (l : List Char) : List Char := (l.reverse.dropWhile isSpace).reverse

/-- Python `str.strip()` on a character list. -/
def pyStripList (l : List Char) : List Char := stripRight (stripLeft l)

/-- Python `str.strip()` on a string. -/
def pyStrip (s : String) : String := String.mk (pyStripList s.data)

/-- Embedding of `AudiobookConverter.sanitize_filename` (main.py lines
104-118).  The two configuration values it reads are passed explicitly:
`output_structure.sanitize_names` and `output_structure.max_filename_length`.
When sanitizing is disabled, the input is returned unchanged. -/
def sanitize_filename (sanitizeNames : Bool) (maxLen : Nat) (s : String) : String :=
  if !sanitizeNames then s
  else
    let l1 := removeReserved s.data
    let l2 := pyStripList (collapseWs l1)
    if maxLen < l2.length then String.mk (stripRight (l2.take maxLen))
    else String.mk l2

/-- A book directory path, reduced to the data `detect_input_structure`
inspects: whether its parent directory is the configured input root, the
parent directory's name, and its own name. -/
structure BookPath where
  parentIsInputRoot : Bool
  parentName : String
  name : String
deriving DecidableEq, Repr

/-- Result of `detect_input_structure`: `('structured', author, book)` or
`('flat', None, book)`. -/
inductive DirStructure where
  | structured (author book : String)
  | flat (book : String)
deriving DecidableEq, Repr

/-- Embedding of `AudiobookConverter.detect_input_structure` (main.py lines
120-136): nested (parent is not the input root) means structured with the
parent name as author; otherwise flat. -/
def detect_input_structure (p : BookPath) : DirStructure :=
  if p.parentIsInputRoot then .flat p.name
  else .structured p.parentName p.name

/-- The metadata dict returned by `extract_metadata_from_files`:
`{'title', 'artist', 'album', 'year'}`.  `year` may be Python `None`. -/
structure BookMetadata where
  title : String
  artist : String
  album : String
  year : Option String
deriving DecidableEq, Repr

/-- Outcome of reading the first audio file with mutagen (main.py lines
146-171): `File()` returned `None`; an exception was raised somewhere in
the `try` block; the file object had no (truthy) tags; ID3v2-style tags
read through `tags.get('TIT2'/... , [''])` (missing frames modelled as the
empty string the `['']` default produces); or generic key/value tags read
through `tags.get('title'/... , [''])`. -/
inductive FileReadResult where
  | fileNone
  | raises
  | noTags
  | id3 (tit2 tpe1 talb tdrc : String)
  | generic (title artist album date : String)
deriving DecidableEq, Repr

/-- Python truthiness of a `str | None` value: `None` and the empty string
are falsy. -/
def falsy : Option String → Bool
  | none => true
  | some s => s == ""

/-- Embedding of the cleanup `x = x.strip() if x else None` (main.py lines
174-177). -/
def cleanField : Option String → Option String
  | none => none
  | some s => if s == "" then none else some (pyStrip s)

/-- Python `a or b` on two strings (used for `TIT2 or TALB`). -/
def pyOr (a b : String) : String := if a == "" then b else a

/-- The three mutable metadata fields threaded through the fallback chain
(`year` takes no part in any fallback). -/
structure Fields where
  title : Option String
  artist : Option String
  album : Option String
deriving DecidableEq, Repr

/-- Embedding of the folder-structure fallback (main.py lines 179-192):
for a structured directory an unresolved artist becomes the inferred
author, and title/album are filled with the inferred book name only when
both are unresolved; for a flat directory title/album are filled with the
directory name only when both are unresolved. -/
def structureFallback (p : BookPath) (f : Fields) : Fields :=
  match detect_input_structure p with
  | .structured author book =>
    let f1 := if falsy f.artist then { f with artist := some author } else f
    if falsy f.title && falsy f.album then { f1 with title := some book, album := some book }
    else f1
  | .flat _ =>
    if falsy f.title && falsy f.album then { f with title := some p.name, album := some p.name }
    else f

/-- Embedding of the final defaults (main.py lines 194-200): artist ←
"Unknown Author", title ← directory name, album ← title, each only when
still falsy. -/
def finalDefaults (p : BookPath) (f : Fields) : Fields :=
  let f1 := if falsy f.artist then { f with artist := some "Unknown Author" } else f
  let f2 := if falsy f1.title then { f1 with title := some p.name } else f1
  if falsy f2.album then { f2 with album := f2.title } else f2

/-- The cleanup-fallback-defaults chain of `extract_metadata_from_files`
applied to the four raw tag values (main.py lines 173-207). -/
def resolveFields (p : BookPath) (t0 a0 al0 y0 : Option String) : BookMetadata :=
  let f0 : Fields := { title := cleanField t0, artist := cleanField a0, album := cleanField al0 }
  let f := finalDefaults p (structureFallback p f0)
  { title := f.title.getD "", artist := f.artist.getD "", album := f.album.getD "",
    year := cleanField y0 }

/-- Embedding of `AudiobookConverter.extract_metadata_from_files` (main.py
lines 138-227).  `audioFiles` is the sorted list of `*.mp3`/`*.m4a` names
in the directory and `r` is the outcome of reading the first of them. -/
def extract_metadata_from_files (p : BookPath) (audioFiles : List String)
    (r : FileReadResult) : Option BookMetadata :=
  if audioFiles.isEmpty then none
  else
    match r with
    | .fileNone => none
    | .raises =>
      match detect_input_structure p with
      | .structured author book =>
        some { title := book, artist := author, album := book, year := none }
      | .flat _ =>
        some { title := p.name, artist := "Unknown Author", album := p.name, year := none }
    | .noTags => some (resolveFields p none none none none)
    | .id3 tit2 tpe1 talb tdrc =>
      some (resolveFields p (some (pyOr tit2 talb)) (some tpe1) (some talb) (some tdrc))
    | .generic t a al d =>
      some (resolveFields p (some (pyOr t al)) (some a) (some al) (some d))

/-- The configuration values the pipeline reads, flattened from
`converter.yaml`:`output_structure.sanitize_names`,
`output_structure.max_filename_length`, `beets.enable_audible`,
`beets.tag_before_conversion`, and the name of the temp directory (the
parent of every staged copy, used when metadata is re-extracted there). -/
structure Config where
  sanitizeNames : Bool
  maxFilenameLength : Nat
  enableAudible : Bool
  tagBeforeConversion : Bool
  tempDirName : String
deriving Repr

/-- Embedding of `AudiobookConverter.create_output_structure` (main.py
lines 229-239): the sanitized author and book directory names and the
`book.m4b` filename.  The directories are created on disk by `mkdir` as a
side effect, recorded by the caller as an `FsEvent.mkOutputDirs` event.
The `bookTitle` argument mirrors `metadata.get('album', book_title)`;
since the metadata record always carries an album, the default is never
used. -/
def create_output_structure (cfg : Config) (md : BookMetadata) (_bookTitle : String) :
    String × String × String :=
  let author := sanitize_filename cfg.sanitizeNames cfg.maxFilenameLength md.artist
  let book := sanitize_filename cfg.sanitizeNames cfg.maxFilenameLength
    (md.album)
  (author, book, book ++ ".m4b")

/-- Name of the staged temp copy: `temp_dir / f"processing_{book_path.name}"`. -/
def tempStagedName (p : BookPath) : String := "processing_" ++ p.name

/-- Name of the transient beets config:
`temp_dir / f'beets_config_{book_path.name}.yaml'` (where `book_path` is
the staged copy). -/
def beetsConfigName (tempName : String) : String := "beets_config_" ++ tempName ++ ".yaml"

/-- Name of the transient beets library database:
`temp_dir / f'beets_{book_path.name}.db'`. -/
def beetsDbName (tempName : String) : String := "beets_" ++ tempName ++ ".db"

/-- Name of the ffmpeg concat list: `temp_dir / f"{book_path.name}_files.txt"`. -/
def concatListName (tempName : String) : String := tempName ++ "_files.txt"

/-- Filesystem / external-tool effects of one `process_audiobook` run, in
program order. -/
inductive FsEvent where
  | mkOutputDirs (author book : String)
  | removeSource
  | removeStaleTemp (name : String)
  | copyToTemp (name : String)
  | writeBeetsConfig (name : String)
  | runBeets
  | unlinkBeetsConfig (name : String)
  | unlinkBeetsDb (name : String)
  | writeConcatList (name : String)
  | runFfmpeg (md : BookMetadata)
  | ffmpegWroteTempOutput (name : String)
  | unlinkConcatList (name : String)
  | moveToOutput (author book file : String)
  | removeTempStaged (name : String)
deriving DecidableEq, Repr

/-- Outcome of the `beet import` subprocess call. -/
inductive BeetsRun where
  | ok
  | exitNonZero
  | timedOut
  | raised
deriving DecidableEq, Repr

/-- Outcome of the ffmpeg subprocess call, `ok` meaning exit status 0 with
the output file present; `failed` covers a non-zero exit status, a
timeout, an exception, and a missing output file. -/
inductive FfmpegRun where
  | ok
  | failed
deriving DecidableEq, Repr

/-- Terminal state of one `process_audiobook` run. -/
inductive Outcome where
  | noMetadata
  | skippedDuplicate
  | success
  | conversionFailed
deriving DecidableEq, Repr

/-- Embedding of `AudiobookConverter.tag_with_beets` (main.py lines
321-391).  Writes the transient config, runs beets, and on success
re-extracts metadata from the (tagged) staged copy, adopting it wholesale
when the re-extraction yields a record; on a non-zero exit status, a
timeout, or any exception the initial metadata is returned.  The `finally`
block always unlinks the transient config and database. -/
def tag_with_beets (tempName : String) (tempBookPath : BookPath)
    (initial : BookMetadata) (run : BeetsRun) (files : List String)
    (postRead : FileReadResult) : BookMetadata × List FsEvent :=
  let events := [FsEvent.writeBeetsConfig (beetsConfigName tempName), FsEvent.runBeets,
                 FsEvent.unlinkBeetsConfig (beetsConfigName tempName),
                 FsEvent.unlinkBeetsDb (beetsDbName tempName)]
  match run with
  | .ok =>
    match extract_metadata_from_files tempBookPath files postRead with
    | some updated => (updated, events)
    | none => (initial, events)
  | _ => (initial, events)

/-- Embedding of `AudiobookConverter.convert_to_m4b_ffmpeg712` (main.py
lines 393-471).  With no audio files it returns `None` immediately;
otherwise it writes the concat list and runs ffmpeg with the given
metadata; on success it unlinks the concat list and returns the temp
output file, on failure it returns `None` (leaving the concat list in
place). -/
def convert_to_m4b_ffmpeg712 (tempName : String) (files : List String)
    (md : BookMetadata) (outputFilename : String) (run : FfmpegRun) :
    Option String × List FsEvent :=
  if files.isEmpty then (none, [])
  else
    match run with
    | .ok =>
      (some outputFilename,
       [FsEvent.writeConcatList (concatListName tempName), FsEvent.runFfmpeg md,
        FsEvent.ffmpegWroteTempOutput outputFilename,
        FsEvent.unlinkConcatList (concatListName tempName)])
    | .failed =>
      (none, [FsEvent.writeConcatList (concatListName tempName), FsEvent.runFfmpeg md])

/-- Environment of one `process_audiobook` run: the directory's audio
files, the outcome of reading the first file's tags, the two existence
checks, and the outcomes of the two external tools.  The staged copy holds
the same file names as the source (`shutil.copytree`; beets is configured
with `copy: False, move: False`), so the re-extraction after tagging and
the transcode step see `audioFiles` again, with possibly different tags
(`postTagRead`). -/
structure Env where
  audioFiles : List String
  readResult : FileReadResult
  finalExists : Bool
  staleTempExists : Bool
  beetsRun : BeetsRun
  postTagRead : FileReadResult
  ffmpegRun : FfmpegRun

/-- Embedding of `AudiobookConverter.process_audiobook` (main.py lines
263-319): extract metadata (drop the job when absent), create the output
structure, skip-and-remove-source when the final file already exists,
stage to temp (removing a stale staged copy first), optionally tag with
beets, transcode, and on success move the result to the output tree and
remove source and staged copy.  The staged copy's path has the temp
directory as parent, which is never the input root. -/
def process_audiobook (cfg : Config) (p : BookPath) (env : Env) :
    Outcome × List FsEvent :=
  match extract_metadata_from_files p env.audioFiles env.readResult with
  | none => (.noMetadata, [])
  | some metadata =>
    let plan := create_output_structure cfg metadata p.name
    let authorName := plan.1
    let bookName := plan.2.1
    let m4bFilename := plan.2.2
    let ev0 : List FsEvent := [.mkOutputDirs authorName bookName]
    if env.finalExists then
      (.skippedDuplicate, ev0 ++ [.removeSource])
    else
      let tempName := tempStagedName p
      let ev1 : List FsEvent := if env.staleTempExists then [.removeStaleTemp tempName] else []
      let ev2 : List FsEvent := [.copyToTemp tempName]
      let tagStep :=
        if cfg.enableAudible && cfg.tagBeforeConversion then
          tag_with_beets tempName
            { parentIsInputRoot := false, parentName := cfg.tempDirName, name := tempName }
            metadata env.beetsRun env.audioFiles env.postTagRead
        else (metadata, ([] : List FsEvent))
      let conv := convert_to_m4b_ffmpeg712 tempName env.audioFiles tagStep.1 m4bFilename
        env.ffmpegRun
      match conv.1 with
      | some _ =>
        (.success,
         ev0 ++ ev1 ++ ev2 ++ tagStep.2 ++ conv.2 ++
           [.moveToOutput authorName bookName m4bFilename, .removeSource,
            .removeTempStaged tempName])
      | none =>
        (.conversionFailed, ev0 ++ ev1 ++ ev2 ++ tagStep.2 ++ conv.2)

/-- Events that create, modify, or remove something under the temp
directory. -/
def touchesTemp : FsEvent → Bool
  | .removeStaleTemp _ => true
  | .copyToTemp _ => true
  | .writeBeetsConfig _ => true
  | .unlinkBeetsConfig _ => true
  | .unlinkBeetsDb _ => true
  | .writeConcatList _ => true
  | .ffmpegWroteTempOutput _ => true
  | .unlinkConcatList _ => true
  | .removeTempStaged _ => true
  | _ => false

/-- Events that place a file into the output tree. -/
def writesOutputFile : FsEvent → Bool
  | .moveToOutput _ _ _ => true
  | _ => false

/-! Helper lemmas. -/

theorem stripRight_length_le (l : List Char) : (stripRight l).length ≤ l.length := by
  have h : List.Sublist (l.reverse.dropWhile isSpace) l.reverse :=
    List.dropWhile_sublist isSpace
  simpa [stripRight] using h.length_le

theorem mem_of_mem_stripRight {c : Char} {l : List Char} (h : c ∈ stripRight l) : c ∈ l := by
  have h1 : c ∈ l.reverse.dropWhile isSpace := by
    simpa [stripRight] using h
  simpa using (List.dropWhile_sublist isSpace).mem h1

theorem mem_of_mem_stripLeft {c : Char} {l : List Char} (h : c ∈ stripLeft l) : c ∈ l :=
  (List.dropWhile_sublist isSpace).mem h

theorem mem_of_mem_pyStripList {c : Char} {l : List Char} (h : c ∈ pyStripList l) : c ∈ l :=
  mem_of_mem_stripLeft (mem_of_mem_stripRight h)

theorem mem_of_mem_collapseWsAux {c : Char} {l : List Char} :
    ∀ {b : Bool}, c ∈ collapseWsAux b l → c ∈ l ∨ c = ' ' := by
  induction l with
  | nil => intro b h; simp [collapseWsAux] at h
  | cons a rest ih =>
    intro b h
    by_cases ha : isSpace a = true
    · cases b with
      | true =>
        rw [collapseWsAux, if_pos ha] at h
        rcases ih h with h1 | h1
        · exact Or.inl (List.mem_cons_of_mem _ h1)
        · exact Or.inr h1
      | false =>
        rw [collapseWsAux, if_pos ha] at h
        rcases List.mem_cons.mp h with h1 | h1
        · exact Or.inr h1
        · rcases ih h1 with h2 | h2
          · exact Or.inl (List.mem_cons_of_mem _ h2)
          · exact Or.inr h2
    · cases b with
      | true =>
        rw [collapseWsAux, if_neg ha] at h
        rcases List.mem_cons.mp h with h1 | h1
        · exact Or.inl (h1 ▸ List.mem_cons_self _ _)
        · rcases ih h1 with h2 | h2
          · exact Or.inl (List.mem_cons_of_mem _ h2)
          · exact Or.inr h2
      | false =>
        rw [collapseWsAux, if_neg ha] at h
        rcases List.mem_cons.mp h with h1 | h1
        · exact Or.inl (h1 ▸ List.mem_cons_self _ _)
        · rcases ih h1 with h2 | h2
          · exact Or.inl (List.mem_cons_of_mem _ h2)
          · exact Or.inr h2

theorem not_reserved_of_mem_removeReserved {c : Char} {l : List Char}
    (h : c ∈ removeReserved l) : c ∉ reservedChars := by
  have h1 := List.of_mem_filter h
  simp at h1
  exact h1

theorem strAppend_left_cancel {s a b : String} (h : s ++ a = s ++ b) : a = b := by
  apply String.ext
  have h2 : s.data ++ a.data = s.data ++ b.data := congrArg String.data h
  exact List.append_cancel_left h2

theorem strAppend_right_cancel {s a b : String} (h : a ++ s = b ++ s) : a = b := by
  apply String.ext
  have h2 : a.data ++ s.data = b.data ++ s.data := congrArg String.data h
  exact List.append_cancel_right h2

theorem tempStagedName_inj {p q : BookPath} (h : tempStagedName p = tempStagedName q) :
    p.name = q.name :=
  strAppend_left_cancel h

theorem extract_some_imp_files_nonempty {p : BookPath} {files : List String}
    {r : FileReadResult} {md : BookMetadata}
    (h : extract_metadata_from_files p files r = some md) : files.isEmpty = false := by
  by_cases hf : files.isEmpty = true
  · exact absurd h (by simp [extract_metadata_from_files, hf])
  · simpa using hf

theorem getD_ne_empty_of_falsy_false {o : Option String} (h : falsy o = false) :
    o.getD "" ≠ "" := by
  cases o with
  | none => simp [falsy] at h
  | some s =>
    simp only [falsy, beq_iff_eq] at h
    simpa using h

theorem finalDefaults_artist (p : BookPath) (f : Fields) :
    (finalDefaults p f).artist = if falsy f.artist then some "Unknown Author" else f.artist := by
  by_cases h1 : falsy f.artist = true <;>
    by_cases h2 : falsy f.title = true <;>
      by_cases h3 : falsy f.album = true <;>
        simp [finalDefaults, h1, h2, h3]

theorem finalDefaults_title (p : BookPath) (f : Fields) :
    (finalDefaults p f).title = if falsy f.title then some p.name else f.title := by
  by_cases h1 : falsy f.artist = true <;>
    by_cases h2 : falsy f.title = true <;>
      by_cases h3 : falsy f.album = true <;>
        simp [finalDefaults, h1, h2, h3]

theorem finalDefaults_album (p : BookPath) (f : Fields) :
    (finalDefaults p f).album =
      if falsy f.album then (if falsy f.title then some p.name else f.title) else f.album := by
  by_cases h1 : falsy f.artist = true <;>
    by_cases h2 : falsy f.title = true <;>
      by_cases h3 : falsy f.album = true <;>
        simp [finalDefaults, h1, h2, h3]

theorem structureFallback_artist (p : BookPath) (f : Fields) :
    (structureFallback p f).artist =
      if p.parentIsInputRoot = false ∧ falsy f.artist = true then some p.parentName
      else f.artist := by
  by_cases hr : p.parentIsInputRoot = true <;>
    by_cases h1 : falsy f.artist = true <;>
      by_cases h2 : falsy f.title = true <;>
        by_cases h3 : falsy f.album = true <;>
          simp [structureFallback, detect_input_structure, hr, h1, h2, h3]

theorem structureFallback_title_album_joint (p : BookPath) (f : Fields)
    (ht : falsy f.title = true) (hal : falsy f.album = true) :
    (structureFallback p f).title = some p.name ∧
    (structureFallback p f).album = some p.name := by
  by_cases hr : p.parentIsInputRoot = true <;>
    by_cases h1 : falsy f.artist = true <;>
      simp [structureFallback, detect_input_structure, hr, h1, ht, hal]

theorem structureFallback_title_album_skip (p : BookPath) (f : Fields)
    (h : ¬(falsy f.title = true ∧ falsy f.album = true)) :
    (structureFallback p f).title = f.title ∧
    (structureFallback p f).album = f.album := by
  by_cases hr : p.parentIsInputRoot = true <;>
    by_cases h1 : falsy f.artist = true <;>
      simp [structureFallback, detect_input_structure, hr, h1, h]

theorem resolveFields_eq (p : BookPath) (t0 a0 al0 y0 : Option String) :
    resolveFields p t0 a0 al0 y0 =
      { title := (finalDefaults p (structureFallback p
          { title := cleanField t0, artist := cleanField a0, album := cleanField al0 })).title.getD "",
        artist := (finalDefaults p (structureFallback p
          { title := cleanField t0, artist := cleanField a0, album := cleanField al0 })).artist.getD "",
        album := (finalDefaults p (structureFallback p
          { title := cleanField t0, artist := cleanField a0, album := cleanField al0 })).album.getD "",
        year := cleanField y0 } := rfl

theorem finalDefaults_artist_getD_ne (p : BookPath) (f : Fields) :
    (finalDefaults p f).artist.getD "" ≠ "" := by
  rw [finalDefaults_artist]
  by_cases hg : falsy f.artist = true
  · rw [if_pos hg]; simp
  · rw [if_neg hg]
    exact getD_ne_empty_of_falsy_false (by simpa using hg)

theorem finalDefaults_title_getD_ne (p : BookPath) (f : Fields) (hname : p.name ≠ "") :
    (finalDefaults p f).title.getD "" ≠ "" := by
  rw [finalDefaults_title]
  by_cases hg : falsy f.title = true
  · rw [if_pos hg]; simpa using hname
  · rw [if_neg hg]
    exact getD_ne_empty_of_falsy_false (by simpa using hg)

theorem resolveFields_artist_ne (p : BookPath) (t0 a0 al0 y0 : Option String) :
    (resolveFields p t0 a0 al0 y0).artist ≠ "" := by
  rw [resolveFields_eq]
  exact finalDefaults_artist_getD_ne _ _

theorem resolveFields_title_ne (p : BookPath) (t0 a0 al0 y0 : Option String)
    (hname : p.name ≠ "") : (resolveFields p t0 a0 al0 y0).title ≠ "" := by
  rw [resolveFields_eq]
  exact finalDefaults_title_getD_ne _ _ hname

theorem sanitize_filename_true_eq (maxLen : Nat) (s : String) :
    sanitize_filename true maxLen s =
      (if maxLen < (pyStripList (collapseWs (removeReserved s.data))).length
       then String.mk (stripRight ((pyStripList (collapseWs (removeReserved s.data))).take maxLen))
       else String.mk (pyStripList (collapseWs (removeReserved s.data)))) := rfl

theorem not_reserved_of_mem_core {c : Char} {s : String}
    (h : c ∈ pyStripList (collapseWs (removeReserved s.data))) : c ∉ reservedChars := by
  have h1 : c ∈ collapseWsAux false (removeReserved s.data) := mem_of_mem_pyStripList h
  rcases mem_of_mem_collapseWsAux h1 with h2 | h2
  · exact not_reserved_of_mem_removeReserved h2
  · subst h2; decide

/-! Claim theorems. -/

/-- C1 (counterexample): a directory holding one supported audio file on
which mutagen's `File()` returns `None` (an unrecognized or corrupt file)
makes `extract_metadata_from_files` return absent even though the
directory does not contain zero supported audio files. -/
theorem extract_absent_despite_audio_file :
    (["chapter1.mp3"] : List String) ≠ [] ∧
    extract_metadata_from_files ⟨true, "input", "Some Book"⟩ ["chapter1.mp3"]
      FileReadResult.fileNone = none := by
  decide

/-- C1 (amended): metadata resolution returns absent exactly when the
directory contains zero supported audio files or mutagen's `File()`
returns `None` on the first audio file; in every other case (including an
exception while reading tags) it returns a metadata record. -/
theorem extract_absent_iff_no_files_or_unreadable (p : BookPath) (files : List String)
    (r : FileReadResult) :
    extract_metadata_from_files p files r = none ↔
      files = [] ∨ r = FileReadResult.fileNone := by
  cases files with
  | nil => simp [extract_metadata_from_files]
  | cons a l =>
    cases r with
    | fileNone => simp [extract_metadata_from_files]
    | raises =>
      by_cases hr : p.parentIsInputRoot = true <;>
        simp [extract_metadata_from_files, detect_input_structure, hr]
    | noTags => simp [extract_metadata_from_files]
    | id3 tit2 tpe1 talb tdrc => simp [extract_metadata_from_files]
    | generic t a2 al d => simp [extract_metadata_from_files]

/-- C7 (counterexample): with `output_structure.sanitize_names` disabled,
`sanitize_filename` returns its input unchanged, so the result can exceed
the configured maximum length and can contain reserved characters. -/
theorem sanitize_disabled_counterexample :
    sanitize_filename false 5 "<<<<<<" = "<<<<<<" ∧
    ¬(sanitize_filename false 5 "<<<<<<").length ≤ 5 ∧
    '<' ∈ (sanitize_filename false 5 "<<<<<<").data := by
  decide

/-- C7 (amended): when `sanitize_names` is enabled, the sanitized name is
no longer than the configured maximum length and contains none of the
reserved characters, and the empty input yields the empty output; when
`sanitize_names` is disabled, the input is returned unchanged.  The
function is total (defined for every input string). -/
theorem sanitize_spec_amended (b : Bool) (maxLen : Nat) (s : String) (hb : b = true) :
    (sanitize_filename b maxLen s).length ≤ maxLen ∧
    (∀ c ∈ (sanitize_filename b maxLen s).data, c ∉ reservedChars) ∧
    sanitize_filename b maxLen "" = "" ∧
    (∀ t : String, sanitize_filename false maxLen t = t) := by
  subst hb
  refine ⟨?_, ?_, ?_, fun t => rfl⟩
  · rw [sanitize_filename_true_eq]
    by_cases hlen : maxLen < (pyStripList (collapseWs (removeReserved s.data))).length
    · rw [if_pos hlen]
      refine le_trans (stripRight_length_le _) ?_
      simp [Nat.min_le_left]
    · rw [if_neg hlen]
      exact Nat.le_of_not_lt hlen
  · intro c hc
    rw [sanitize_filename_true_eq] at hc
    by_cases hlen : maxLen < (pyStripList (collapseWs (removeReserved s.data))).length
    · rw [if_pos hlen] at hc
      have h1 : c ∈ (pyStripList (collapseWs (removeReserved s.data))).take maxLen :=
        mem_of_mem_stripRight hc
      exact not_reserved_of_mem_core ((List.take_sublist _ _).mem h1)
    · rw [if_neg hlen] at hc
      exact not_reserved_of_mem_core hc
  · simp [sanitize_filename_true_eq, removeReserved, collapseWs, collapseWsAux,
      pyStripList, stripLeft, stripRight]

/-- C7 witness for `sanitize_spec_amended` at a concrete input. -/
theorem sanitize_spec_amended_witness :
    (true = true) ∧
    ((sanitize_filename true 5 " a<b:   c ").length ≤ 5 ∧
     (∀ c ∈ (sanitize_filename true 5 " a<b:   c ").data, c ∉ reservedChars) ∧
     sanitize_filename true 5 "" = "" ∧
     (∀ t : String, sanitize_filename false 5 t = t)) :=
  ⟨rfl, sanitize_spec_amended true 5 " a<b:   c " rfl⟩

/-- C8: when reading the first audio file's tags raises an exception,
metadata resolution still returns a record built from the folder
structure and defaults: inferred author/book names for a structured
directory, the directory name with artist "Unknown Author" for a flat
one. -/
theorem tag_read_exception_structure_fallback (p : BookPath) (files : List String)
    (h : files ≠ []) :
    extract_metadata_from_files p files FileReadResult.raises =
      some (if p.parentIsInputRoot
            then { title := p.name, artist := "Unknown Author", album := p.name, year := none }
            else { title := p.name, artist := p.parentName, album := p.name, year := none }) := by
  have hne : files.isEmpty = false := by cases files <;> simp_all
  by_cases hr : p.parentIsInputRoot = true <;>
    simp [extract_metadata_from_files, detect_input_structure, hne, hr]

/-- C8 witness for `tag_read_exception_structure_fallback` at concrete
structured input. -/
theorem tag_read_exception_structure_fallback_witness :
    (["01.mp3"] : List String) ≠ [] ∧
    extract_metadata_from_files ⟨false, "Jane Doe", "My Book"⟩ ["01.mp3"]
      FileReadResult.raises =
      some { title := "My Book", artist := "Jane Doe", album := "My Book", year := none } := by
  refine ⟨by decide, ?_⟩
  have h := tag_read_exception_structure_fallback ⟨false, "Jane Doe", "My Book"⟩ ["01.mp3"]
    (by decide)
  simpa using h

/-- C9 (counterexample): two distinct source book directories with the
same directory name under different authors are assigned identical staged
copy, beets config, beets database, and concat list names, so their
scratch files collide. -/
theorem temp_paths_collide_same_book_name :
    (⟨false, "Author A", "It"⟩ : BookPath) ≠ ⟨false, "Author B", "It"⟩ ∧
    tempStagedName ⟨false, "Author A", "It"⟩ = tempStagedName ⟨false, "Author B", "It"⟩ ∧
    beetsConfigName (tempStagedName ⟨false, "Author A", "It"⟩) =
      beetsConfigName (tempStagedName ⟨false, "Author B", "It"⟩) ∧
    beetsDbName (tempStagedName ⟨false, "Author A", "It"⟩) =
      beetsDbName (tempStagedName ⟨false, "Author B", "It"⟩) ∧
    concatListName (tempStagedName ⟨false, "Author A", "It"⟩) =
      concatListName (tempStagedName ⟨false, "Author B", "It"⟩) := by
  refine ⟨by decide, rfl, rfl, rfl, rfl⟩

/-- C9 (amended): the job-scoped temp paths are functions of the source
directory's leaf name alone; two books whose directory names differ get
distinct staged copy, beets config, beets database, and concat list
names (books sharing a directory name collide, as the counterexample
shows). -/
theorem temp_paths_distinct_of_distinct_names (p q : BookPath) (h : p.name ≠ q.name) :
    tempStagedName p ≠ tempStagedName q ∧
    beetsConfigName (tempStagedName p) ≠ beetsConfigName (tempStagedName q) ∧
    beetsDbName (tempStagedName p) ≠ beetsDbName (tempStagedName q) ∧
    concatListName (tempStagedName p) ≠ concatListName (tempStagedName q) := by
  have h1 : tempStagedName p ≠ tempStagedName q := fun he => h (tempStagedName_inj he)
  refine ⟨h1, ?_, ?_, ?_⟩
  · intro he; exact h1 (strAppend_left_cancel (strAppend_right_cancel he))
  · intro he; exact h1 (strAppend_left_cancel (strAppend_right_cancel he))
  · intro he; exact h1 (strAppend_right_cancel he)

/-- C9 witness for `temp_paths_distinct_of_distinct_names` at concrete
inputs. -/
theorem temp_paths_distinct_of_distinct_names_witness :
    ("Book One" : String) ≠ "Book Two" ∧
    (tempStagedName ⟨false, "A", "Book One"⟩ ≠ tempStagedName ⟨true, "in", "Book Two"⟩ ∧
     beetsConfigName (tempStagedName ⟨false, "A", "Book One"⟩) ≠
       beetsConfigName (tempStagedName ⟨true, "in", "Book Two"⟩) ∧
     beetsDbName (tempStagedName ⟨false, "A", "Book One"⟩) ≠
       beetsDbName (tempStagedName ⟨true, "in", "Book Two"⟩) ∧
     concatListName (tempStagedName ⟨false, "A", "Book One"⟩) ≠
       concatListName (tempStagedName ⟨true, "in", "Book Two"⟩)) :=
  ⟨by decide, temp_paths_distinct_of_distinct_names ⟨false, "A", "Book One"⟩
    ⟨true, "in", "Book Two"⟩ (by decide)⟩

/-- C2: whenever metadata resolution returns a record for a well-formed
book directory (nonempty directory name; nonempty parent name when
nested), the artist and title fields are nonempty; and the structured
directory `Input/Jane Doe/My Book/` with tagless audio files resolves to
artist "Jane Doe", title "My Book", album "My Book". -/
theorem resolved_artist_title_nonempty (p : BookPath) (files : List String)
    (r : FileReadResult) (md : BookMetadata)
    (hname : p.name ≠ "")
    (hparent : p.parentIsInputRoot = false → p.parentName ≠ "")
    (hmd : extract_metadata_from_files p files r = some md) :
    md.artist ≠ "" ∧ md.title ≠ "" ∧
    extract_metadata_from_files ⟨false, "Jane Doe", "My Book"⟩ ["01.mp3"]
      FileReadResult.noTags =
      some { title := "My Book", artist := "Jane Doe", album := "My Book", year := none } := by
  have hne : files.isEmpty = false := extract_some_imp_files_nonempty hmd
  refine ⟨?_, ?_, by decide⟩ <;>
  · cases r with
    | fileNone => simp [extract_metadata_from_files, hne] at hmd
    | raises =>
      by_cases hr : p.parentIsInputRoot = true
      · simp [extract_metadata_from_files, detect_input_structure, hne, hr] at hmd
        subst hmd
        first
          | exact (by decide : ("Unknown Author" : String) ≠ "")
          | exact hname
      · have hr2 : p.parentIsInputRoot = false := by simpa using hr
        simp [extract_metadata_from_files, detect_input_structure, hne, hr2] at hmd
        subst hmd
        first
          | exact hparent hr2
          | exact hname
    | noTags =>
      simp [extract_metadata_from_files, hne] at hmd
      subst hmd
      first
        | exact resolveFields_artist_ne _ _ _ _ _
        | exact resolveFields_title_ne _ _ _ _ _ hname
    | id3 tit2 tpe1 talb tdrc =>
      simp [extract_metadata_from_files, hne] at hmd
      subst hmd
      first
        | exact resolveFields_artist_ne _ _ _ _ _
        | exact resolveFields_title_ne _ _ _ _ _ hname
    | generic t a2 al d =>
      simp [extract_metadata_from_files, hne] at hmd
      subst hmd
      first
        | exact resolveFields_artist_ne _ _ _ _ _
        | exact resolveFields_title_ne _ _ _ _ _ hname

/-- C2 witness for `resolved_artist_title_nonempty` at the spec's concrete
example input. -/
theorem resolved_artist_title_nonempty_witness :
    (⟨false, "Jane Doe", "My Book"⟩ : BookPath).name ≠ "" ∧
    extract_metadata_from_files ⟨false, "Jane Doe", "My Book"⟩ ["01.mp3"]
      FileReadResult.noTags =
      some { title := "My Book", artist := "Jane Doe", album := "My Book", year := none } ∧
    (({ title := "My Book", artist := "Jane Doe", album := "My Book",
        year := none } : BookMetadata).artist ≠ "" ∧
     ({ title := "My Book", artist := "Jane Doe", album := "My Book",
        year := none } : BookMetadata).title ≠ "" ∧
     extract_metadata_from_files ⟨false, "Jane Doe", "My Book"⟩ ["01.mp3"]
       FileReadResult.noTags =
       some { title := "My Book", artist := "Jane Doe", album := "My Book", year := none }) :=
  ⟨by decide, by decide,
   resolved_artist_title_nonempty ⟨false, "Jane Doe", "My Book"⟩ ["01.mp3"]
     FileReadResult.noTags
     { title := "My Book", artist := "Jane Doe", album := "My Book", year := none }
     (by decide) (fun _ => by decide) (by decide)⟩

/-- C3 (counterexample): a structured directory `Auth/Book` whose first
file carries an embedded title tag "T" but no album tag resolves with
album "T" (copied from the title by the final defaults), not the inferred
book name "Book" — the structure-based step does not fill an unresolved
album when the title was resolved from tags. -/
theorem structure_fallback_not_independent :
    extract_metadata_from_files ⟨false, "Auth", "Book"⟩ ["01.mp3"]
      (FileReadResult.id3 "T" "" "" "") =
      some { title := "T", artist := "Auth", album := "T", year := none } ∧
    ("T" : String) ≠ "Book" := by
  decide

/-- C3 (amended): the structure-based step fills an unresolved artist with
the inferred author independently, but fills title and album (with the
inferred book name, which for a flat directory is the directory name) only
when both are unresolved; when exactly one of title/album is unresolved it
is filled by the final-defaults step instead: an unresolved title becomes
the directory name and an unresolved album becomes the resolved title. -/
theorem structure_fallback_joint_fill (p : BookPath) (t0 a0 al0 y0 : Option String) :
    (falsy (cleanField t0) = true → falsy (cleanField al0) = true →
      (resolveFields p t0 a0 al0 y0).title = p.name ∧
      (resolveFields p t0 a0 al0 y0).album = p.name) ∧
    (falsy (cleanField t0) = false → falsy (cleanField al0) = true →
      (resolveFields p t0 a0 al0 y0).title = (cleanField t0).getD "" ∧
      (resolveFields p t0 a0 al0 y0).album = (resolveFields p t0 a0 al0 y0).title) ∧
    (falsy (cleanField t0) = true → falsy (cleanField al0) = false →
      (resolveFields p t0 a0 al0 y0).title = p.name ∧
      (resolveFields p t0 a0 al0 y0).album = (cleanField al0).getD "") ∧
    (p.parentIsInputRoot = false → falsy (cleanField a0) = true →
      (resolveFields p t0 a0 al0 y0).artist =
        (if p.parentName = "" then "Unknown Author" else p.parentName)) := by
  refine ⟨?_, ?_, ?_, ?_⟩
  · intro ht hal
    obtain ⟨hT, hA⟩ := structureFallback_title_album_joint p
      { title := cleanField t0, artist := cleanField a0, album := cleanField al0 } ht hal
    constructor
    · rw [resolveFields_eq]
      show (finalDefaults p _).title.getD "" = p.name
      rw [finalDefaults_title, hT]
      split <;> rfl
    · rw [resolveFields_eq]
      show (finalDefaults p _).album.getD "" = p.name
      rw [finalDefaults_album, hA, hT]
      by_cases h : falsy (some p.name) = true <;> simp [h]
  · intro ht hal
    obtain ⟨hT, hA⟩ := structureFallback_title_album_skip p
      { title := cleanField t0, artist := cleanField a0, album := cleanField al0 }
      (by simp [ht])
    have htit : (finalDefaults p (structureFallback p
        { title := cleanField t0, artist := cleanField a0,
          album := cleanField al0 })).title = cleanField t0 := by
      rw [finalDefaults_title, hT]
      simp [ht]
    constructor
    · rw [resolveFields_eq]
      show (finalDefaults p _).title.getD "" = (cleanField t0).getD ""
      rw [htit]
    · rw [resolveFields_eq]
      show (finalDefaults p _).album.getD "" = (finalDefaults p _).title.getD ""
      rw [finalDefaults_album, hA, hT, htit]
      simp [ht, hal]
  · intro ht hal
    obtain ⟨hT, hA⟩ := structureFallback_title_album_skip p
      { title := cleanField t0, artist := cleanField a0, album := cleanField al0 }
      (by simp [hal])
    constructor
    · rw [resolveFields_eq]
      show (finalDefaults p _).title.getD "" = p.name
      rw [finalDefaults_title, hT]
      simp [ht]
    · rw [resolveFields_eq]
      show (finalDefaults p _).album.getD "" = (cleanField al0).getD ""
      rw [finalDefaults_album, hA]
      simp [hal]
  · intro hroot ha
    have hA : (structureFallback p
        { title := cleanField t0, artist := cleanField a0,
          album := cleanField al0 }).artist = some p.parentName := by
      rw [structureFallback_artist]
      simp [hroot, ha]
    rw [resolveFields_eq]
    show (finalDefaults p _).artist.getD "" = _
    rw [finalDefaults_artist, hA]
    by_cases hpn : p.parentName = "" <;> simp [falsy, hpn]

/-- C3 witness for `structure_fallback_joint_fill`: a resolved title with
an unresolved album makes the final album a copy of the title. -/
theorem structure_fallback_joint_fill_witness :
    falsy (cleanField (some "T")) = false ∧ falsy (cleanField none) = true ∧
    ((resolveFields ⟨false, "Auth", "Book"⟩ (some "T") none none none).title =
       (cleanField (some "T")).getD "" ∧
     (resolveFields ⟨false, "Auth", "Book"⟩ (some "T") none none none).album =
       (resolveFields ⟨false, "Auth", "Book"⟩ (some "T") none none none).title) :=
  ⟨by decide, by decide,
   (structure_fallback_joint_fill ⟨false, "Auth", "Book"⟩ (some "T") none none none).2.1
     (by decide) (by decide)⟩

theorem tag_with_beets_events (tempName : String) (tbp : BookPath) (initial : BookMetadata)
    (run : BeetsRun) (files : List String) (postRead : FileReadResult) :
    (tag_with_beets tempName tbp initial run files postRead).2 =
      [FsEvent.writeBeetsConfig (beetsConfigName tempName), FsEvent.runBeets,
       FsEvent.unlinkBeetsConfig (beetsConfigName tempName),
       FsEvent.unlinkBeetsDb (beetsDbName tempName)] := by
  cases run with
  | ok =>
    unfold tag_with_beets
    cases hx : extract_metadata_from_files tbp files postRead <;> simp [hx]
  | exitNonZero => rfl
  | timedOut => rfl
  | raised => rfl

theorem tag_with_beets_fail_fst {tempName : String} {tbp : BookPath} {initial : BookMetadata}
    {run : BeetsRun} {files : List String} {postRead : FileReadResult}
    (h : run ≠ BeetsRun.ok) :
    (tag_with_beets tempName tbp initial run files postRead).1 = initial := by
  cases run with
  | ok => exact absurd rfl h
  | exitNonZero => rfl
  | timedOut => rfl
  | raised => rfl

theorem convert_failed_fst (t : String) (fs : List String) (md : BookMetadata) (o : String) :
    (convert_to_m4b_ffmpeg712 t fs md o FfmpegRun.failed).1 = none := by
  unfold convert_to_m4b_ffmpeg712
  split <;> rfl

theorem convert_events_failed {t : String} {fs : List String} {md : BookMetadata} {o : String}
    (h : fs.isEmpty = false) :
    convert_to_m4b_ffmpeg712 t fs md o FfmpegRun.failed =
      (none, [FsEvent.writeConcatList (concatListName t), FsEvent.runFfmpeg md]) := by
  unfold convert_to_m4b_ffmpeg712
  rw [if_neg (by simp [h])]

theorem convert_events_ok {t : String} {fs : List String} {md : BookMetadata} {o : String}
    (h : fs.isEmpty = false) :
    convert_to_m4b_ffmpeg712 t fs md o FfmpegRun.ok =
      (some o,
       [FsEvent.writeConcatList (concatListName t), FsEvent.runFfmpeg md,
        FsEvent.ffmpegWroteTempOutput o, FsEvent.unlinkConcatList (concatListName t)]) := by
  unfold convert_to_m4b_ffmpeg712
  rw [if_neg (by simp [h])]

/-- C4: when the planned final output file already exists at the
idempotence check, processing removes the source directory and terminates
successfully (skip outcome), with no event creating or modifying anything
under the temp directory and no event writing a file into the output
tree. -/
theorem already_done_skip_removes_source_only (cfg : Config) (p : BookPath) (env : Env)
    (md : BookMetadata)
    (hmd : extract_metadata_from_files p env.audioFiles env.readResult = some md)
    (hex : env.finalExists = true) :
    (process_audiobook cfg p env).1 = Outcome.skippedDuplicate ∧
    FsEvent.removeSource ∈ (process_audiobook cfg p env).2 ∧
    ∀ e ∈ (process_audiobook cfg p env).2, touchesTemp e = false ∧ writesOutputFile e = false := by
  unfold process_audiobook
  rw [hmd]
  simp [hex, touchesTemp, writesOutputFile]

/-- C4 witness for `already_done_skip_removes_source_only` at a concrete
job. -/
theorem already_done_skip_removes_source_only_witness :
    extract_metadata_from_files ⟨false, "A", "B"⟩ ["01.mp3"] FileReadResult.noTags =
      some { title := "B", artist := "A", album := "B", year := none } ∧
    ((process_audiobook ⟨true, 200, true, true, "temp"⟩ ⟨false, "A", "B"⟩
        ⟨["01.mp3"], FileReadResult.noTags, true, false, BeetsRun.ok,
         FileReadResult.noTags, FfmpegRun.ok⟩).1 = Outcome.skippedDuplicate ∧
     FsEvent.removeSource ∈ (process_audiobook ⟨true, 200, true, true, "temp"⟩ ⟨false, "A", "B"⟩
        ⟨["01.mp3"], FileReadResult.noTags, true, false, BeetsRun.ok,
         FileReadResult.noTags, FfmpegRun.ok⟩).2 ∧
     ∀ e ∈ (process_audiobook ⟨true, 200, true, true, "temp"⟩ ⟨false, "A", "B"⟩
        ⟨["01.mp3"], FileReadResult.noTags, true, false, BeetsRun.ok,
         FileReadResult.noTags, FfmpegRun.ok⟩).2,
       touchesTemp e = false ∧ writesOutputFile e = false) :=
  ⟨by decide,
   already_done_skip_removes_source_only ⟨true, 200, true, true, "temp"⟩ ⟨false, "A", "B"⟩
     ⟨["01.mp3"], FileReadResult.noTags, true, false, BeetsRun.ok,
      FileReadResult.noTags, FfmpegRun.ok⟩
     { title := "B", artist := "A", album := "B", year := none } (by decide) rfl⟩

/-- C5: when the transcode step fails or times out (the converter returns
no output file), the job ends in the conversion-failed outcome, the source
directory is not removed, the staged temp copy was created and is not
removed afterwards, and no event moves a file into the output tree. -/
theorem transcode_failure_preserves_source_and_staged (cfg : Config) (p : BookPath) (env : Env)
    (md : BookMetadata)
    (hmd : extract_metadata_from_files p env.audioFiles env.readResult = some md)
    (hex : env.finalExists = false)
    (hff : env.ffmpegRun = FfmpegRun.failed) :
    (process_audiobook cfg p env).1 = Outcome.conversionFailed ∧
    FsEvent.removeSource ∉ (process_audiobook cfg p env).2 ∧
    FsEvent.copyToTemp (tempStagedName p) ∈ (process_audiobook cfg p env).2 ∧
    FsEvent.removeTempStaged (tempStagedName p) ∉ (process_audiobook cfg p env).2 ∧
    ∀ e ∈ (process_audiobook cfg p env).2, writesOutputFile e = false := by
  have hne : env.audioFiles.isEmpty = false := extract_some_imp_files_nonempty hmd
  unfold process_audiobook
  rw [hmd]
  by_cases hst : env.staleTempExists = true <;>
    by_cases htag : (cfg.enableAudible && cfg.tagBeforeConversion) = true <;>
      simp [hex, hff, hst, htag, convert_events_failed hne, tag_with_beets_events,
        writesOutputFile]

/-- C5 witness for `transcode_failure_preserves_source_and_staged` at a
concrete job. -/
theorem transcode_failure_preserves_source_and_staged_witness :
    extract_metadata_from_files ⟨false, "A", "B"⟩ ["01.mp3"] FileReadResult.noTags =
      some { title := "B", artist := "A", album := "B", year := none } ∧
    ((process_audiobook ⟨true, 200, true, true, "temp"⟩ ⟨false, "A", "B"⟩
        ⟨["01.mp3"], FileReadResult.noTags, false, true, BeetsRun.exitNonZero,
         FileReadResult.noTags, FfmpegRun.failed⟩).1 = Outcome.conversionFailed ∧
     FsEvent.removeSource ∉ (process_audiobook ⟨true, 200, true, true, "temp"⟩ ⟨false, "A", "B"⟩
        ⟨["01.mp3"], FileReadResult.noTags, false, true, BeetsRun.exitNonZero,
         FileReadResult.noTags, FfmpegRun.failed⟩).2 ∧
     FsEvent.copyToTemp (tempStagedName ⟨false, "A", "B"⟩) ∈
       (process_audiobook ⟨true, 200, true, true, "temp"⟩ ⟨false, "A", "B"⟩
        ⟨["01.mp3"], FileReadResult.noTags, false, true, BeetsRun.exitNonZero,
         FileReadResult.noTags, FfmpegRun.failed⟩).2 ∧
     FsEvent.removeTempStaged (tempStagedName ⟨false, "A", "B"⟩) ∉
       (process_audiobook ⟨true, 200, true, true, "temp"⟩ ⟨false, "A", "B"⟩
        ⟨["01.mp3"], FileReadResult.noTags, false, true, BeetsRun.exitNonZero,
         FileReadResult.noTags, FfmpegRun.failed⟩).2 ∧
     ∀ e ∈ (process_audiobook ⟨true, 200, true, true, "temp"⟩ ⟨false, "A", "B"⟩
        ⟨["01.mp3"], FileReadResult.noTags, false, true, BeetsRun.exitNonZero,
         FileReadResult.noTags, FfmpegRun.failed⟩).2, writesOutputFile e = false) :=
  ⟨by decide,
   transcode_failure_preserves_source_and_staged ⟨true, 200, true, true, "temp"⟩
     ⟨false, "A", "B"⟩
     ⟨["01.mp3"], FileReadResult.noTags, false, true, BeetsRun.exitNonZero,
      FileReadResult.noTags, FfmpegRun.failed⟩
     { title := "B", artist := "A", album := "B", year := none } (by decide) rfl rfl⟩

/-- C6: when the tagging tool exits non-zero, times out, or raises an
exception, `tag_with_beets` returns the pre-tagging metadata unchanged,
the transcode step is invoked with exactly that metadata, and if the
transcode itself succeeds the job still succeeds — tagging failure alone
never fails the job. -/
theorem tagging_failure_keeps_initial_metadata (cfg : Config) (p : BookPath) (env : Env)
    (md : BookMetadata)
    (hmd : extract_metadata_from_files p env.audioFiles env.readResult = some md)
    (hex : env.finalExists = false)
    (hen : cfg.enableAudible = true)
    (htb : cfg.tagBeforeConversion = true)
    (hbr : env.beetsRun ≠ BeetsRun.ok) :
    (tag_with_beets (tempStagedName p) ⟨false, cfg.tempDirName, tempStagedName p⟩ md
       env.beetsRun env.audioFiles env.postTagRead).1 = md ∧
    FsEvent.runFfmpeg md ∈ (process_audiobook cfg p env).2 ∧
    (env.ffmpegRun = FfmpegRun.ok → (process_audiobook cfg p env).1 = Outcome.success) := by
  have hne : env.audioFiles.isEmpty = false := extract_some_imp_files_nonempty hmd
  have htag1 : (tag_with_beets (tempStagedName p)
      ⟨false, cfg.tempDirName, tempStagedName p⟩ md
      env.beetsRun env.audioFiles env.postTagRead).1 = md := tag_with_beets_fail_fst hbr
  refine ⟨htag1, ?_, ?_⟩
  · unfold process_audiobook
    rw [hmd]
    by_cases hst : env.staleTempExists = true <;>
      cases hffr : env.ffmpegRun <;>
        simp [hex, hen, htb, hst, htag1, tag_with_beets_events,
          convert_events_failed hne, convert_events_ok hne]
  · intro hok
    unfold process_audiobook
    rw [hmd]
    by_cases hst : env.staleTempExists = true <;>
      simp [hex, hen, htb, hst, hok, htag1, tag_with_beets_events, convert_events_ok hne]

/-- C6 witness for `tagging_failure_keeps_initial_metadata` at a concrete
job whose tagging times out but whose transcode succeeds. -/
theorem tagging_failure_keeps_initial_metadata_witness :
    extract_metadata_from_files ⟨false, "A", "B"⟩ ["01.mp3"] FileReadResult.noTags =
      some { title := "B", artist := "A", album := "B", year := none } ∧
    ((tag_with_beets (tempStagedName ⟨false, "A", "B"⟩)
        ⟨false, "temp", tempStagedName ⟨false, "A", "B"⟩⟩
        { title := "B", artist := "A", album := "B", year := none }
        BeetsRun.timedOut ["01.mp3"] FileReadResult.noTags).1 =
          { title := "B", artist := "A", album := "B", year := none } ∧
     FsEvent.runFfmpeg { title := "B", artist := "A", album := "B", year := none } ∈
       (process_audiobook ⟨true, 200, true, true, "temp"⟩ ⟨false, "A", "B"⟩
        ⟨["01.mp3"], FileReadResult.noTags, false, false, BeetsRun.timedOut,
         FileReadResult.noTags, FfmpegRun.ok⟩).2 ∧
     (FfmpegRun.ok = FfmpegRun.ok →
       (process_audiobook ⟨true, 200, true, true, "temp"⟩ ⟨false, "A", "B"⟩
        ⟨["01.mp3"], FileReadResult.noTags, false, false, BeetsRun.timedOut,
         FileReadResult.noTags, FfmpegRun.ok⟩).1 = Outcome.success)) :=
  ⟨by decide,
   tagging_failure_keeps_initial_metadata ⟨true, 200, true, true, "temp"⟩ ⟨false, "A", "B"⟩
     ⟨["01.mp3"], FileReadResult.noTags, false, false, BeetsRun.timedOut,
      FileReadResult.noTags, FfmpegRun.ok⟩
     { title := "B", artist := "A", album := "B", year := none }
     (by decide) rfl rfl rfl (by decide)⟩

/-- C10: for every job whose metadata extraction succeeds, the very first
filesystem event of the run — before the already-done existence check can
terminate it — creates the sanitized output Author/Book directories, and
this event is present in the trace of skipped and failed jobs as well
(no event in the model ever removes an output directory). -/
theorem output_dirs_created_before_idempotence_check (cfg : Config) (p : BookPath) (env : Env)
    (md : BookMetadata)
    (hmd : extract_metadata_from_files p env.audioFiles env.readResult = some md) :
    (process_audiobook cfg p env).2.head? =
      some (FsEvent.mkOutputDirs
        (sanitize_filename cfg.sanitizeNames cfg.maxFilenameLength md.artist)
        (sanitize_filename cfg.sanitizeNames cfg.maxFilenameLength md.album)) ∧
    FsEvent.mkOutputDirs
        (sanitize_filename cfg.sanitizeNames cfg.maxFilenameLength md.artist)
        (sanitize_filename cfg.sanitizeNames cfg.maxFilenameLength md.album) ∈
      (process_audiobook cfg p env).2 := by
  have hne : env.audioFiles.isEmpty = false := extract_some_imp_files_nonempty hmd
  unfold process_audiobook
  rw [hmd]
  by_cases hex : env.finalExists = true
  · simp [hex, create_output_structure]
  · by_cases hst : env.staleTempExists = true <;>
      by_cases htag : (cfg.enableAudible && cfg.tagBeforeConversion) = true <;>
        cases hffr : env.ffmpegRun <;>
          simp [hex, hst, htag, hffr, create_output_structure, tag_with_beets_events,
            convert_events_failed hne, convert_events_ok hne]

/-- C10 witness for `output_dirs_created_before_idempotence_check` at a
concrete skipped job. -/
theorem output_dirs_created_before_idempotence_check_witness :
    extract_metadata_from_files ⟨false, "A", "B"⟩ ["01.mp3"] FileReadResult.noTags =
      some { title := "B", artist := "A", album := "B", year := none } ∧
    ((process_audiobook ⟨true, 200, true, true, "temp"⟩ ⟨false, "A", "B"⟩
        ⟨["01.mp3"], FileReadResult.noTags, true, false, BeetsRun.ok,
         FileReadResult.noTags, FfmpegRun.ok⟩).2.head? =
      some (FsEvent.mkOutputDirs (sanitize_filename true 200 "A") (sanitize_filename true 200 "B")) ∧
     FsEvent.mkOutputDirs (sanitize_filename true 200 "A") (sanitize_filename true 200 "B") ∈
       (process_audiobook ⟨true, 200, true, true, "temp"⟩ ⟨false, "A", "B"⟩
        ⟨["01.mp3"], FileReadResult.noTags, true, false, BeetsRun.ok,
         FileReadResult.noTags, FfmpegRun.ok⟩).2) :=
  ⟨by decide,
   output_dirs_created_before_idempotence_check ⟨true, 200, true, true, "temp"⟩
     ⟨false, "A", "B"⟩
     ⟨["01.mp3"], FileReadResult.noTags, true, false, BeetsRun.ok,
      FileReadResult.noTags, FfmpegRun.ok⟩
     { title := "B", artist := "A", album := "B", year := none } (by decide)⟩

end M4bMaker
